import Mathlib

/-!
The websocketpp stress client, `examples/stress_client/stress_client.cpp`.

A shallow embedding of the stress client: the handler class
`echo_client_handler` (its digest-count table `m_msg_stats`, its timer
`m_timer` and the five callbacks), the report serialisation of
`send_stats_update`, and the sequential part of `main` (argument handling,
the `RLIMIT_NOFILE` negotiation and the connection ramp-up loop).

Conventions of the embedding.

* Calls into the engine and the operating system are recorded, in program
  order, as a list of `Effect`s (handler) or `Event`s (`main`).
* `std::map<std::string,size_t>` is the list of its entries in iteration
  order, which is ascending key order; `size_t` is 64 bits wide.
* `boost::shared_ptr<deadline_timer>` is an `Option`; dereferencing an empty
  pointer is a fault, and a callback that faults returns `none`.
* `int` is 32 bits wide, two's complement.
-/

namespace StressClient

/-! ## Machine integers -/

/-- Number of values of `size_t` (64-bit). -/
def SIZE_T_RANGE : Nat := 18446744073709551616

/-- Number of values of `rlim_t` (unsigned 64-bit). -/
def RLIM_T_RANGE : Nat := 18446744073709551616

/-- Largest value of `int`. -/
def INT_MAX : Int := 2147483647

/-- Smallest value of `int`. -/
def INT_MIN : Int := -2147483648

/-- Result of an `int` operation whose mathematical value is `x`: the value
itself when it is representable, the two's complement residue otherwise. -/
def wrap_int (x : Int) : Int :=
  (x + 2147483648) % 4294967296 - 2147483648

/-- Conversion of an `int` to the unsigned type `rlim_t`. -/
def to_rlim_t (x : Int) : Nat :=
  (x % (RLIM_T_RANGE : Int)).toNat

/-! ## `std::string` ordering and `std::map<std::string,size_t>` -/

/-- The comparison `std::less<std::string>`: lexicographic on the characters. -/
def string_less (a b : String) : Prop := a.data < b.data

instance string_less_decidable (a b : String) : Decidable (string_less a b) := by
  unfold string_less
  infer_instance

/-- A `std::map<std::string,size_t>`, as the list of its entries in iteration order. -/
abbrev std_map := List (String × Nat)

namespace std_map

/-- The class invariant of `std::map`: keys strictly ascending in iteration order. -/
def ordered (m : std_map) : Prop :=
  m.Pairwise (fun a b => string_less a.1 b.1)

/-- The member `empty()`. -/
def empty (m : std_map) : Bool := m.isEmpty

/-- The member `size()`. -/
def size (m : std_map) : Nat := m.length

/-- The member `find(k)`, giving the mapped value when the key is present. -/
def find (k : String) : std_map → Option Nat
  | [] => none
  | (k1, v) :: rest =>
    if string_less k k1 then none
    else if string_less k1 k then find k rest
    else some v

/-- The insertion done by `operator[]`: when no entry is equivalent to `k`, a
value-initialised entry `(k, 0)` is added at its place in the order. -/
def subscript (k : String) : std_map → std_map
  | [] => [(k, 0)]
  | (k1, v) :: rest =>
    if string_less k k1 then (k, 0) :: (k1, v) :: rest
    else if string_less k1 k then (k1, v) :: subscript k rest
    else (k1, v) :: rest

/-- The `++` applied to the `size_t` that `operator[]` refers to. -/
def increment (k : String) : std_map → std_map
  | [] => []
  | (k1, v) :: rest =>
    if string_less k k1 then (k1, v) :: rest
    else if string_less k1 k then (k1, v) :: increment k rest
    else (k1, (v + 1) % SIZE_T_RANGE) :: rest

/-- The statement `m[k]++`. -/
def subscript_increment (k : String) (m : std_map) : std_map :=
  increment k (subscript k m)

/-- The keys, in iteration order. -/
def keys (m : std_map) : List String := m.map Prod.fst

end std_map

/-! ## The handler `echo_client_handler` -/

/-- A `connection_ptr`: the identity of the connection it points to. -/
abbrev connection_ptr := Nat

/-- A `message::data_ptr`: the message with its payload. -/
structure data_ptr where
  payload : String
  deriving DecidableEq, Repr

/-- The member `get_payload()`. -/
def data_ptr.get_payload (msg : data_ptr) : String := msg.payload

/-- A `boost::asio::deadline_timer`: the expiry last set, in milliseconds from
the moment it was set, and the connections bound into the waits that are
pending on it. -/
structure deadline_timer where
  expires_ms : Nat
  pending : List connection_ptr
  deriving DecidableEq, Repr

namespace deadline_timer

/-- The constructor `deadline_timer(io_service, seconds(secs))`. -/
def create (secs : Nat) : deadline_timer :=
  { expires_ms := 1000 * secs, pending := [] }

/-- The member `expires_from_now(milliseconds(ms))`: sets the expiry; waits
still pending are cancelled. -/
def expires_from_now (ms : Nat) (_t : deadline_timer) : deadline_timer :=
  { expires_ms := ms, pending := [] }

/-- The member `async_wait(bind(&on_timer, this, connection, _1))`. -/
def async_wait (connection : connection_ptr) (t : deadline_timer) : deadline_timer :=
  { t with pending := t.pending ++ [connection] }

/-- The member `cancel()`: no wait stays pending. -/
def cancel (t : deadline_timer) : deadline_timer :=
  { t with pending := [] }

/-- A timer is armed when a wait is pending on it. -/
def armed (t : deadline_timer) : Bool := !t.pending.isEmpty

end deadline_timer

/-- What a callback asks of the engine or writes to the console. -/
inductive Effect where
  | send (connection : connection_ptr) (payload : String) (binary : Bool)
  | recycle (connection : connection_ptr) (msg : data_ptr)
  | cout (line : String)
  deriving DecidableEq, Repr

/-- The data members of `echo_client_handler`. -/
structure echo_client_handler where
  m_msg_stats : std_map
  m_timer : Option deadline_timer
  deriving DecidableEq, Repr

namespace echo_client_handler

/-- The handler as `new echo_client_handler()` leaves it: an empty table
and an empty timer pointer. -/
def create : echo_client_handler :=
  { m_msg_stats := [], m_timer := none }

/-- The callback `on_open`. -/
def on_open (connection : connection_ptr) (h : echo_client_handler) :
    echo_client_handler × List Effect :=
  match h.m_timer with
  | none =>
    let t := deadline_timer.create 0
    let t := t.expires_from_now 250
    let t := t.async_wait connection
    ({ h with m_timer := some t }, [])
  | some _ => (h, [])

/-- The callback `on_message`; `md5_hash_hex` is the digest function of
`md5/md5.hpp`. -/
def on_message (md5_hash_hex : String → String) (connection : connection_ptr)
    (msg : data_ptr) (h : echo_client_handler) : echo_client_handler × List Effect :=
  ({ h with m_msg_stats := h.m_msg_stats.subscript_increment (md5_hash_hex msg.get_payload) },
   [Effect.recycle connection msg])

/-- The callback `on_fail`. -/
def on_fail (_connection : connection_ptr) (h : echo_client_handler) :
    echo_client_handler × List Effect :=
  (h, [Effect.cout "connection failed"])

/-- One pass of the `for` loop of `send_stats_update` over the entries from
iterator position `pos` on, appending to the stream `msg`; `last` is the
position of the iterator `last`. -/
def append_entries (last : Nat) : Nat → List (String × Nat) → String → String
  | _, [], msg => msg
  | pos, (k, v) :: rest, msg =>
    append_entries last (pos + 1) rest
      (msg ++ "\x7b\"" ++ k ++ "\":" ++ toString v ++ "\x7d" ++ (if pos ≠ last then "," else ""))

/-- The text that `send_stats_update` builds in its string stream. -/
def stats_text (m : std_map) : String :=
  let msg := "\x7b\"type\":\"acks\",\"messages\":["
  let last := if m.size > 0 then m.size - 1 else m.size
  let msg := append_entries last 0 m msg
  msg ++ "]\x7d"

/-- The private member `send_stats_update`. -/
def send_stats_update (connection : connection_ptr) (h : echo_client_handler) :
    echo_client_handler × List Effect :=
  if h.m_msg_stats.empty then (h, [])
  else
    ({ h with m_msg_stats := [] }, [Effect.send connection (stats_text h.m_msg_stats) false])

/-- The callback `on_timer`; `error` tells whether the error code is set.
The result is `none` when `m_timer` is dereferenced while empty. -/
def on_timer (connection : connection_ptr) (error : Bool) (h : echo_client_handler) :
    Option (echo_client_handler × List Effect) :=
  if error then some (h, [Effect.cout "on_timer error"])
  else
    let (h1, sent) := send_stats_update connection h
    match h1.m_timer with
    | none => none
    | some t =>
      let t := t.expires_from_now 250
      let t := t.async_wait connection
      some ({ h1 with m_timer := some t }, sent)

/-- The callback `on_close`. The result is `none` when `m_timer` is
dereferenced while empty. -/
def on_close (_connection : connection_ptr) (h : echo_client_handler) :
    Option (echo_client_handler × List Effect) :=
  match h.m_timer with
  | none => none
  | some t => some ({ h with m_timer := some t.cancel }, [])

/-- Whether a timer is armed for the handler. -/
def timer_armed (h : echo_client_handler) : Bool :=
  match h.m_timer with
  | none => false
  | some t => t.armed

end echo_client_handler

/-- The payloads sent by a list of effects, with the connection each one is sent on. -/
def sent_reports : List Effect → List (connection_ptr × String)
  | [] => []
  | Effect.send c p _ :: rest => (c, p) :: sent_reports rest
  | _ :: rest => sent_reports rest

/-- Delivery of a sequence of messages to `on_message` of one handler, each
with the connection it arrived on. -/
def deliver_messages (md5_hash_hex : String → String) :
    List (connection_ptr × data_ptr) → echo_client_handler → echo_client_handler
  | [], h => h
  | (c, msg) :: rest, h =>
    deliver_messages md5_hash_hex rest (echo_client_handler.on_message md5_hash_hex c msg h).1

/-- How many messages of a sequence have the digest `d`. -/
def digest_count (md5_hash_hex : String → String) (d : String)
    (msgs : List (connection_ptr × data_ptr)) : Nat :=
  msgs.countP (fun x => decide (md5_hash_hex x.2.get_payload = d))

/-! ## The report format, in the words of the specification -/

/-- One entry of a report: the single-key mapping of a digest to its count. -/
def report_entry (e : String × Nat) : String :=
  "\x7b\"" ++ e.1 ++ "\":" ++ toString e.2 ++ "\x7d"

/-- The given texts, with exactly one comma between consecutive ones and
none after the last. -/
def comma_separated : List String → String
  | [] => ""
  | [a] => a
  | a :: b :: rest => a ++ "," ++ comma_separated (b :: rest)

/-- The report for a table: the type discriminator and the list of the
entries, one per key, in the order of the table. -/
def report_text (m : std_map) : String :=
  "\x7b\"type\":\"acks\",\"messages\":[" ++ comma_separated (m.map report_entry) ++ "]\x7d"

/-! ## Handler objects, callbacks and the endpoint -/

/-- The callbacks of the handler interface, with their arguments other than
the connection. -/
inductive Callback where
  | on_open
  | on_message (msg : data_ptr)
  | on_fail
  | on_timer (error : Bool)
  | on_close
  deriving DecidableEq, Repr

/-- A call of a callback on a handler object, for `connection`. -/
def echo_client_handler.call (md5_hash_hex : String → String) (connection : connection_ptr)
    (cb : Callback) (h : echo_client_handler) : Option (echo_client_handler × List Effect) :=
  match cb with
  | Callback.on_open => some (h.on_open connection)
  | Callback.on_message msg => some (h.on_message md5_hash_hex connection msg)
  | Callback.on_fail => some (h.on_fail connection)
  | Callback.on_timer error => h.on_timer connection error
  | Callback.on_close => h.on_close connection

/-- A `plain_handler_ptr`: the position of the object it points to in the
list of the `echo_client_handler` objects that have been constructed. -/
abbrev handler_ptr := Nat

/-- A callback called for `connection` through a handler pointer `target`:
it runs on the object pointed to, which is updated in place. Which object
the engine calls for a connection is decided in `endpoint.hpp`, which is
not among the sources, so the pointer is an argument. The result is `none`
when no object is at `target` or the callback faults. -/
def invoke (md5_hash_hex : String → String) (handlers : List echo_client_handler)
    (target : handler_ptr) (connection : connection_ptr) (cb : Callback) :
    Option (List echo_client_handler × List Effect) :=
  match handlers.get? target with
  | none => none
  | some h =>
    (h.call md5_hash_hex connection cb).map (fun x => (handlers.set target x.1, x.2))

/-- The digest-count table of the handler object at `target`. -/
def table_of (handlers : List echo_client_handler) (target : handler_ptr) : Option std_map :=
  (handlers.get? target).map (fun h => h.m_msg_stats)

/-- The timer pointer of the handler object at `target`. -/
def timer_of (handlers : List echo_client_handler) (target : handler_ptr) :
    Option (Option deadline_timer) :=
  (handlers.get? target).map (fun h => h.m_timer)

/-- Modelled from the spec: the endpoint type (`endpoint.hpp` is not among
the sources), as far as `main` uses it. The one member taken from the
sources is the handler pointer: the client role keeps the `handler_ptr` it
is constructed with (`m_handler` of `roles/client.hpp`). Connections are
told apart by a handle, and `next_connection` is the handle the next
`connect` returns. -/
structure endpoint where
  m_handler : handler_ptr
  next_connection : connection_ptr
  deriving DecidableEq, Repr

namespace endpoint

/-- The constructor `plain_endpoint_type endpoint(handler)`: the role stores
the pointer (`client(io_service&, handler_ptr h) : m_handler(h)`). -/
def create (handler : handler_ptr) : endpoint :=
  { m_handler := handler, next_connection := 0 }

/-- The member `get_handler()` of `roles/client.hpp`. -/
def get_handler (e : endpoint) : handler_ptr := e.m_handler

/-- Modelled from the spec: `endpoint.connect(uri)` (`endpoint.hpp` is not
among the sources) returns the handle of a new connection; a connect failure
is reported later through `on_fail`, not by the call. -/
def connect (_uri : String) (e : endpoint) : connection_ptr × endpoint :=
  (e.next_connection, { e with next_connection := e.next_connection + 1 })

end endpoint

/-! ## The operating system interface and `main` -/

/-- A `struct rlimit`. -/
structure rlimit where
  rlim_cur : Nat
  rlim_max : Nat
  deriving DecidableEq, Repr

/-- The error number `EPERM` of `errno.h`. -/
def EPERM : Int := 1

/-- The operating system as `main` meets it: the result of
`getrlimit(RLIMIT_NOFILE, &rl)` with the limits it stores, and for each
request the result of `setrlimit(RLIMIT_NOFILE, &rl)` with the value `errno`
has after the call. -/
structure OS where
  getrlimit_result : Int
  limits : rlimit
  setrlimit : rlimit → Int × Int

/-- The limits of the process after `setrlimit` was called with `rl`: the
requested ones when the call succeeded, the former ones when it failed. -/
def OS.limits_after (os : OS) (rl : rlimit) : rlimit :=
  if (os.setrlimit rl).1 = 0 then rl else os.limits

/-- What `main` does that can be observed, in program order. -/
inductive Event where
  | cout (line : String)
  | getrlimit
  | setrlimit (rl : rlimit)
  | connect (uri : String)
  | thread_run
  | sleep (seconds : Nat)
  | join
  deriving DecidableEq, Repr

/-- The objects of the `try` block of `main`, with the events so far:
`handlers` lists the `echo_client_handler` objects constructed with `new`,
`connections` is the `std::set` of that name. -/
structure main_state where
  events : List Event
  handlers : List echo_client_handler
  endpoint : endpoint
  connections : List connection_ptr
  deriving DecidableEq, Repr

namespace main_state

/-- Records an event. -/
def emit (ev : Event) (st : main_state) : main_state :=
  { st with events := st.events ++ [ev] }

/-- The statement `connections.insert(endpoint.connect(uri))`. -/
def insert_connect (uri : String) (st : main_state) : main_state :=
  let (c, e) := st.endpoint.connect uri
  { events := st.events ++ [Event.connect uri],
    handlers := st.handlers,
    endpoint := e,
    connections := if c ∈ st.connections then st.connections else st.connections ++ [c] }

end main_state

/-- The argument handling of `main`: the uri, `num_batches` and `batch_size`
it goes on with, and what it prints. `argv` holds the `argc` arguments and
`atoi` is the C library function. -/
def arguments (atoi : String → Int) (argv : List String) :
    String × Int × Int × List Event :=
  if argv.length ≠ 4 then
    ("ws://localhost:9002/", 1, 1,
      [Event.cout "Usage: `echo_client test_url num_batches batch_size`"])
  else
    (argv.getD 1 "", atoi (argv.getD 2 ""), atoi (argv.getD 3 ""), [])

/-- The value of `ideal_size` in `main`. -/
def ideal_size (num_connections : Int) : Nat :=
  to_rlim_t (wrap_int (200 + num_connections))

/-- The limit negotiation of `main`, from `getrlimit` to the end of its `if`. -/
def negotiate (os : OS) (num_connections : Int) : List Event :=
  let ideal := ideal_size num_connections
  let result := os.getrlimit_result
  if result = 0 then
    let rl := os.limits
    let old_size := rl.rlim_cur
    let old_max := rl.rlim_max
    if rl.rlim_cur < ideal then
      let rl := { rl with rlim_cur := ideal }
      let rl := if rl.rlim_max < ideal then { rl with rlim_max := ideal } else rl
      let result := (os.setrlimit rl).1
      let errno := (os.setrlimit rl).2
      [Event.getrlimit,
       Event.cout ("Attempting to raise system file descriptor limit from "
         ++ toString old_size ++ " to " ++ toString ideal),
       Event.setrlimit rl,
       if result = 0 then Event.cout "Success"
       else if result = EPERM then
         Event.cout ("Failed. This server will be limited to " ++ toString old_size
           ++ " concurrent connections. Error code: Insufficient permissions. Try running process as root. system max: "
           ++ toString old_max)
       else
         Event.cout ("Failed. This server will be limited to " ++ toString old_size
           ++ " concurrent connections. Error code: " ++ toString errno
           ++ " system max: " ++ toString old_max)]
    else [Event.getrlimit]
  else [Event.getrlimit]

/-- The `for` loop of `main`, from the test of `i < num_connections-1` on.
`fuel` bounds the number of passes; the result is `none` when the fuel runs
out before the test fails, or when `i % batch_size` divides by zero. -/
def ramp_up (uri : String) (num_connections batch_size : Int) :
    Nat → Int → main_state → Option main_state
  | 0, i, st => if i < wrap_int (num_connections - 1) then none else some st
  | fuel + 1, i, st =>
    if i < wrap_int (num_connections - 1) then
      if batch_size = 0 then none
      else
        let st := if Int.tmod i batch_size = 0 then st.emit (Event.sleep 1) else st
        let st := st.insert_connect uri
        ramp_up uri num_connections batch_size fuel (wrap_int (i + 1)) st
    else some st

/-- The function `main`. Its one `new echo_client_handler()` constructs the
handler object at position 0, and `handler` points to it. The loop is given
one unit of fuel for each value `i` can take below `num_connections-1`. -/
def main (atoi : String → Int) (os : OS) (argv : List String) : Option main_state :=
  let (uri, num_batches, batch_size, usage) := arguments atoi argv
  let num_connections := wrap_int (num_batches * batch_size)
  let limits := negotiate os num_connections
  let handlers := [echo_client_handler.create]
  let handler : handler_ptr := 0
  let st : main_state :=
    { events := usage ++ limits, handlers := handlers, endpoint := endpoint.create handler,
      connections := [] }
  let st := st.insert_connect uri
  let st := st.emit Event.thread_run
  let st := st.emit (Event.cout ("launching " ++ toString num_connections ++ " connections to "
    ++ uri ++ " in batches of " ++ toString batch_size))
  match ramp_up uri num_connections batch_size (wrap_int (num_connections - 1)).toNat 0 st with
  | none => none
  | some st =>
    let st := st.emit (Event.cout "complete")
    let st := st.emit Event.join
    let st := st.emit (Event.cout "done")
    some st

/-! ## Observations on the events of `main` -/

/-- The number of `connect` calls among the events. -/
def connect_count : List Event → Nat
  | [] => 0
  | Event.connect _ :: rest => connect_count rest + 1
  | _ :: rest => connect_count rest

/-- The total of the pauses among the events, in seconds. -/
def pause_total : List Event → Nat
  | [] => 0
  | Event.sleep s :: rest => pause_total rest + s
  | _ :: rest => pause_total rest

/-- For each `connect` call, in order, the pauses taken since the `connect`
call before it (`acc` holds the pauses met since then). -/
def pauses_before_connects (acc : List Nat) : List Event → List (List Nat)
  | [] => []
  | Event.connect _ :: rest => acc :: pauses_before_connects [] rest
  | Event.sleep s :: rest => pauses_before_connects (acc ++ [s]) rest
  | _ :: rest => pauses_before_connects acc rest

/-- The `setrlimit` requests among the events. -/
def setrlimit_calls : List Event → List rlimit
  | [] => []
  | Event.setrlimit rl :: rest => rl :: setrlimit_calls rest
  | _ :: rest => setrlimit_calls rest

/-- The lines written to `std::cout` among the events. -/
def cout_lines : List Event → List String
  | [] => []
  | Event.cout line :: rest => line :: cout_lines rest
  | _ :: rest => cout_lines rest

/-- The events of the pass of the `for` loop of `main` at index `i`. -/
def loop_pass_events (uri : String) (batch_size : Int) (i : Nat) : List Event :=
  (if Int.tmod (i : Int) batch_size = 0 then [Event.sleep 1] else []) ++ [Event.connect uri]

/-- The events of `k` consecutive passes of the loop, from index `i` on. -/
def loop_events (uri : String) (batch_size : Int) : Nat → Nat → List Event
  | _, 0 => []
  | i, k + 1 => loop_pass_events uri batch_size i ++ loop_events uri batch_size (i + 1) k

/-- An event that is neither a `connect`, a pause nor a `setrlimit`. -/
def Event.plain : Event → Bool
  | Event.connect _ => false
  | Event.sleep _ => false
  | Event.setrlimit _ => false
  | _ => true

/-- An operating system for examples: limits 202 and 205, and a
`setrlimit` that succeeds up to the hard limit and fails with `EPERM` beyond. -/
def example_os : OS :=
  { getrlimit_result := 0,
    limits := { rlim_cur := 202, rlim_max := 205 },
    setrlimit := fun rl => if rl.rlim_max ≤ 205 then (0, 0) else (-1, EPERM) }

/-- An `atoi` for examples, on the numerals used in them. -/
def example_atoi (s : String) : Int :=
  if s = "0" then 0 else if s = "1" then 1 else if s = "2" then 2 else if s = "3" then 3
  else 0

/-! ## The ordering of keys -/

theorem string_less_irrefl (a : String) : ¬ string_less a a := by
  unfold string_less
  exact lt_irrefl a.data

theorem string_less_trans {a b c : String} (h1 : string_less a b) (h2 : string_less b c) :
    string_less a c := by
  unfold string_less at *
  exact lt_trans h1 h2

theorem string_less_asymm {a b : String} (h1 : string_less a b) : ¬ string_less b a := by
  unfold string_less at *
  exact lt_asymm h1

theorem string_eq_of_not_less {a b : String} (h1 : ¬ string_less a b) (h2 : ¬ string_less b a) :
    a = b := by
  unfold string_less at *
  rcases lt_trichotomy a.data b.data with h | h | h
  · exact absurd h h1
  · exact String.ext h
  · exact absurd h h2

/-! ## The table operations -/

namespace std_map

theorem ordered_cons {e : String × Nat} {m : std_map} :
    ordered (e :: m) ↔ (∀ x ∈ m, string_less e.1 x.1) ∧ ordered m := by
  unfold ordered
  exact List.pairwise_cons

theorem mem_subscript {k : String} {m : std_map} {x : String × Nat}
    (hx : x ∈ subscript k m) : x = (k, 0) ∨ x ∈ m := by
  induction m with
  | nil => simpa [subscript] using hx
  | cons e rest ih =>
    obtain ⟨k1, v⟩ := e
    unfold subscript at hx
    split_ifs at hx with h1 h2
    · simpa using hx
    · rcases List.mem_cons.1 hx with h | h
      · exact Or.inr (h ▸ List.mem_cons_self _ _)
      · rcases ih h with h3 | h3
        · exact Or.inl h3
        · exact Or.inr (List.mem_cons_of_mem _ h3)
    · exact Or.inr hx

theorem ordered_subscript {k : String} {m : std_map} (hm : ordered m) :
    ordered (subscript k m) := by
  induction m with
  | nil => simp [subscript, ordered]
  | cons e rest ih =>
    obtain ⟨k1, v⟩ := e
    have hc := ordered_cons.1 hm
    unfold subscript
    split_ifs with h1 h2
    · refine ordered_cons.2 ⟨?_, hm⟩
      intro x hx
      rcases List.mem_cons.1 hx with h | h
      · subst h; exact h1
      · exact string_less_trans h1 (hc.1 x h)
    · refine ordered_cons.2 ⟨?_, ih hc.2⟩
      intro x hx
      rcases mem_subscript hx with h | h
      · subst h; exact h2
      · exact hc.1 x h
    · exact hm

theorem find_subscript {k : String} {m : std_map} (hm : ordered m) (d : String) :
    find d (subscript k m) = if d = k then some ((find k m).getD 0) else find d m := by
  induction m with
  | nil =>
    by_cases hd : d = k
    · subst hd; simp [subscript, find, string_less_irrefl]
    · simp only [subscript, find, hd, if_false]
      by_cases h1 : string_less d k
      · simp [h1]
      · by_cases h2 : string_less k d
        · simp [h1, h2]
        · exact absurd (string_eq_of_not_less h1 h2) hd
  | cons e rest ih =>
    obtain ⟨k1, v⟩ := e
    have hc := ordered_cons.1 hm
    by_cases h1 : string_less k k1
    · -- the new entry goes in front
      simp only [subscript, h1, if_true]
      by_cases hd : d = k
      · subst hd; simp [find, string_less_irrefl, h1]
      · simp only [hd, if_false]
        by_cases h3 : string_less d k
        · have h4 : string_less d k1 := string_less_trans h3 h1
          simp [find, h3, h4]
        · have h5 : string_less k d := by
            by_contra h6
            exact hd (string_eq_of_not_less h3 h6)
          rw [find, if_neg h3, if_pos h5]
    · by_cases h2 : string_less k1 k
      · -- the key lies further on
        simp only [subscript, h1, h2, if_true, if_false]
        by_cases hd : d = k
        · subst hd
          simp only [find, h1, h2, if_true, if_false]
          rw [ih hc.2]; simp
        · simp only [hd, if_false]
          by_cases h3 : string_less d k1
          · simp [find, h3]
          · by_cases h4 : string_less k1 d
            · simp only [find, h3, h4, if_true, if_false]
              rw [ih hc.2]; simp [hd]
            · simp [find, h3, h4]
      · -- the key is present
        simp only [subscript, h1, h2, if_false]
        have hkk : k = k1 := string_eq_of_not_less h1 h2
        subst hkk
        by_cases hd : d = k
        · subst hd; simp [find, string_less_irrefl]
        · simp [hd]

theorem keys_increment (k : String) (m : std_map) : keys (increment k m) = keys m := by
  induction m with
  | nil => rfl
  | cons e rest ih =>
    obtain ⟨k1, v⟩ := e
    unfold increment
    split_ifs with h1 h2
    · rfl
    · simp only [keys, List.map_cons] at ih ⊢
      rw [ih]
    · rfl

theorem ordered_iff_keys (m : std_map) : ordered m ↔ (keys m).Pairwise string_less := by
  unfold ordered keys
  rw [List.pairwise_map]

theorem ordered_increment {k : String} {m : std_map} (hm : ordered m) :
    ordered (increment k m) := by
  rw [ordered_iff_keys] at hm ⊢
  rw [keys_increment]; exact hm

theorem find_increment {k : String} {m : std_map} (d : String) :
    find d (increment k m)
      = if d = k then (find k m).map (fun v => (v + 1) % SIZE_T_RANGE) else find d m := by
  induction m with
  | nil => simp [increment, find]
  | cons e rest ih =>
    obtain ⟨k1, v⟩ := e
    by_cases h1 : string_less k k1
    · simp only [increment, h1, if_true]
      by_cases hd : d = k
      · subst hd; simp [find, h1]
      · simp [hd]
    · by_cases h2 : string_less k1 k
      · simp only [increment, h1, h2, if_true, if_false]
        by_cases hd : d = k
        · subst hd
          simp only [find, h1, h2, if_true, if_false]
          rw [ih]; simp
        · simp only [hd, if_false]
          by_cases h3 : string_less d k1
          · simp [find, h3]
          · by_cases h4 : string_less k1 d
            · simp only [find, h3, h4, if_true, if_false]
              rw [ih]; simp [hd]
            · simp [find, h3, h4]
      · simp only [increment, h1, h2, if_false]
        have hkk : k = k1 := string_eq_of_not_less h1 h2
        subst hkk
        by_cases hd : d = k
        · subst hd; simp [find, h1]
        · simp only [hd, if_false]
          by_cases h3 : string_less d k
          · simp [find, h3]
          · by_cases h4 : string_less k d
            · simp [find, h3, h4]
            · exact absurd (string_eq_of_not_less h3 h4) hd

theorem ordered_subscript_increment {k : String} {m : std_map} (hm : ordered m) :
    ordered (subscript_increment k m) :=
  ordered_increment (ordered_subscript hm)

theorem find_subscript_increment {k : String} {m : std_map} (hm : ordered m) (d : String) :
    find d (subscript_increment k m)
      = if d = k then some (((find k m).getD 0 + 1) % SIZE_T_RANGE) else find d m := by
  unfold subscript_increment
  rw [find_increment, find_subscript hm, find_subscript hm]
  by_cases hd : d = k
  · simp [hd]
  · simp [hd]

theorem find_eq_some_iff {m : std_map} (hm : ordered m) (d : String) (v : Nat) :
    find d m = some v ↔ (d, v) ∈ m := by
  induction m with
  | nil => simp [find]
  | cons e rest ih =>
    obtain ⟨k1, v1⟩ := e
    have hc := ordered_cons.1 hm
    unfold find
    split_ifs with h1 h2
    · constructor
      · intro h; cases h
      · intro h
        rcases List.mem_cons.1 h with h3 | h3
        · cases h3; exact absurd h1 (string_less_irrefl _)
        · exact absurd h1 (string_less_asymm (hc.1 _ h3))
    · rw [ih hc.2]
      constructor
      · intro h; exact List.mem_cons_of_mem _ h
      · intro h
        rcases List.mem_cons.1 h with h3 | h3
        · cases h3; exact absurd h2 (string_less_irrefl _)
        · exact h3
    · have hkk : d = k1 := string_eq_of_not_less h1 h2
      subst hkk
      constructor
      · intro h; cases h; exact List.mem_cons_self _ _
      · intro h
        rcases List.mem_cons.1 h with h3 | h3
        · cases h3; rfl
        · exact absurd (hc.1 _ h3) (string_less_irrefl _)

theorem keys_nodup {m : std_map} (hm : ordered m) : (keys m).Nodup := by
  rw [ordered_iff_keys] at hm
  unfold List.Nodup
  refine hm.imp ?_
  intro a b hab h
  subst h
  exact string_less_irrefl _ hab

end std_map

/-! ## The table after a sequence of messages -/

theorem digest_count_cons (md5_hash_hex : String → String) (d : String)
    (x : connection_ptr × data_ptr) (rest : List (connection_ptr × data_ptr)) :
    digest_count md5_hash_hex d (x :: rest)
      = digest_count md5_hash_hex d rest
        + (if md5_hash_hex x.2.get_payload = d then 1 else 0) := by
  unfold digest_count
  rw [List.countP_cons]
  simp

theorem digest_count_le_length (md5_hash_hex : String → String) (d : String)
    (msgs : List (connection_ptr × data_ptr)) :
    digest_count md5_hash_hex d msgs ≤ msgs.length := by
  unfold digest_count
  exact List.countP_le_length _

theorem digest_count_pos_iff (md5_hash_hex : String → String) (d : String)
    (msgs : List (connection_ptr × data_ptr)) :
    0 < digest_count md5_hash_hex d msgs ↔ ∃ x ∈ msgs, md5_hash_hex x.2.get_payload = d := by
  unfold digest_count
  rw [List.countP_pos_iff]
  simp

theorem deliver_messages_table (md5_hash_hex : String → String)
    (msgs : List (connection_ptr × data_ptr)) (h : echo_client_handler)
    (hm : h.m_msg_stats.ordered) :
    (deliver_messages md5_hash_hex msgs h).m_msg_stats.ordered ∧
    ∀ d, (deliver_messages md5_hash_hex msgs h).m_msg_stats.find d
      = if digest_count md5_hash_hex d msgs = 0 then h.m_msg_stats.find d
        else some (((h.m_msg_stats.find d).getD 0 + digest_count md5_hash_hex d msgs)
          % SIZE_T_RANGE) := by
  induction msgs generalizing h with
  | nil =>
    refine ⟨hm, ?_⟩
    intro d
    simp [deliver_messages, digest_count]
  | cons x rest ih =>
    obtain ⟨c, msg⟩ := x
    have hm1 : (echo_client_handler.on_message md5_hash_hex c msg h).1.m_msg_stats.ordered :=
      std_map.ordered_subscript_increment hm
    have ih1 := ih (echo_client_handler.on_message md5_hash_hex c msg h).1 hm1
    refine ⟨ih1.1, ?_⟩
    intro d
    have h2 := ih1.2 d
    simp only [deliver_messages]
    rw [h2, digest_count_cons]
    have hf : (echo_client_handler.on_message md5_hash_hex c msg h).1.m_msg_stats.find d
        = if d = md5_hash_hex msg.get_payload
          then some (((h.m_msg_stats.find (md5_hash_hex msg.get_payload)).getD 0 + 1)
            % SIZE_T_RANGE)
          else h.m_msg_stats.find d :=
      std_map.find_subscript_increment hm d
    rw [hf]
    by_cases hd : md5_hash_hex msg.get_payload = d
    · subst hd
      simp only [if_true]
      by_cases h0 : digest_count md5_hash_hex (md5_hash_hex msg.get_payload) rest = 0
      · simp [h0]
      · simp only [h0, if_false, Option.getD_some]
        have h3 : digest_count md5_hash_hex (md5_hash_hex msg.get_payload) rest + 1 ≠ 0 := by omega
        simp only [h3, if_false]
        congr 1
        rw [Nat.mod_add_mod]
        congr 1
        omega
    · have hd2 : ¬ d = md5_hash_hex msg.get_payload := fun e => hd e.symm
      simp [hd, hd2]

/-- C2. On any handler whose table is empty, with or without a timer,
delivering a sequence of fewer than `2^64` messages to `on_message` leaves a
table whose keys are pairwise different and ascending, and whose entries are
exactly the pairs of a digest occurring in the sequence with the number of
messages having it. -/
theorem digest_counts_after_messages (md5_hash_hex : String → String)
    (h : echo_client_handler) (hempty : h.m_msg_stats = [])
    (msgs : List (connection_ptr × data_ptr)) (hlen : msgs.length < SIZE_T_RANGE) :
    (deliver_messages md5_hash_hex msgs h).m_msg_stats.ordered ∧
    (deliver_messages md5_hash_hex msgs h).m_msg_stats.keys.Nodup ∧
    (∀ d, d ∈ (deliver_messages md5_hash_hex msgs h).m_msg_stats.keys
      ↔ ∃ x ∈ msgs, md5_hash_hex x.2.get_payload = d) ∧
    (∀ d n, (d, n) ∈ (deliver_messages md5_hash_hex msgs h).m_msg_stats
      ↔ (0 < n ∧ n = digest_count md5_hash_hex d msgs)) := by
  have h0 : h.m_msg_stats.ordered := by
    rw [hempty]
    simp [std_map.ordered]
  obtain ⟨hord, hfind⟩ := deliver_messages_table md5_hash_hex msgs h h0
  have hent : ∀ d n,
      (d, n) ∈ (deliver_messages md5_hash_hex msgs h).m_msg_stats
      ↔ (0 < n ∧ n = digest_count md5_hash_hex d msgs) := by
    intro d n
    rw [← std_map.find_eq_some_iff hord, hfind d]
    have hle := digest_count_le_length md5_hash_hex d msgs
    by_cases hz : digest_count md5_hash_hex d msgs = 0
    · simp only [hz, if_true]
      simp only [hempty, std_map.find]
      constructor
      · intro h; cases h
      · intro h; omega
    · simp only [hz, if_false]
      simp only [hempty, std_map.find, Option.getD_none, Nat.zero_add]
      rw [Nat.mod_eq_of_lt (by omega)]
      constructor
      · intro h
        have h1 : digest_count md5_hash_hex d msgs = n := Option.some.inj h
        omega
      · intro h; rw [h.2]
  refine ⟨hord, std_map.keys_nodup hord, ?_, hent⟩
  intro d
  rw [← digest_count_pos_iff]
  unfold std_map.keys
  rw [List.mem_map]
  constructor
  · rintro ⟨⟨d1, n⟩, hmem, hd⟩
    simp only at hd
    subst hd
    have := (hent d1 n).1 hmem
    omega
  · intro hpos
    exact ⟨(d, digest_count md5_hash_hex d msgs), (hent d _).2 ⟨hpos, rfl⟩, rfl⟩

theorem digest_counts_after_messages_witness :
    (echo_client_handler.on_open 3 echo_client_handler.create).1.m_msg_stats = [] ∧
    (echo_client_handler.on_open 3 echo_client_handler.create).1.m_timer
      = some { expires_ms := 250, pending := [3] } ∧
    [((3 : connection_ptr), (⟨"p1"⟩ : data_ptr)), (4, ⟨"p1"⟩), (3, ⟨"p2"⟩)].length
      < SIZE_T_RANGE ∧
    (deliver_messages id [(3, ⟨"p1"⟩), (4, ⟨"p1"⟩), (3, ⟨"p2"⟩)]
        (echo_client_handler.on_open 3 echo_client_handler.create).1).m_msg_stats
      = [("p1", 2), ("p2", 1)] ∧
    ∀ d n, (d, n) ∈ (deliver_messages id [(3, ⟨"p1"⟩), (4, ⟨"p1"⟩), (3, ⟨"p2"⟩)]
        (echo_client_handler.on_open 3 echo_client_handler.create).1).m_msg_stats
      ↔ (0 < n ∧ n = digest_count id d [(3, ⟨"p1"⟩), (4, ⟨"p1"⟩), (3, ⟨"p2"⟩)]) :=
  ⟨by decide, by decide, by decide, by decide,
   (digest_counts_after_messages id
      (echo_client_handler.on_open 3 echo_client_handler.create).1 (by decide)
      [(3, ⟨"p1"⟩), (4, ⟨"p1"⟩), (3, ⟨"p2"⟩)] (by decide)).2.2.2⟩

/-! ## The report -/

theorem append_entries_eq (last pos : Nat) (rest : List (String × Nat)) (msg : String)
    (hne : rest ≠ []) (hlast : last + 1 = pos + rest.length) :
    echo_client_handler.append_entries last pos rest msg
      = msg ++ comma_separated (rest.map report_entry) := by
  induction rest generalizing pos msg with
  | nil => exact absurd rfl hne
  | cons e rest ih =>
    obtain ⟨k, v⟩ := e
    cases rest with
    | nil =>
      have hp : pos = last := by simp at hlast; omega
      simp only [echo_client_handler.append_entries, hp, ne_eq, not_true_eq_false, if_false,
        List.map_cons, List.map_nil, comma_separated, report_entry, String.append_assoc,
        String.append_empty]
    | cons e2 rest2 =>
      have hp : pos ≠ last := by simp at hlast; omega
      rw [echo_client_handler.append_entries, if_pos hp]
      rw [ih (pos + 1) _ (by simp) (by simp at hlast ⊢; omega)]
      simp only [List.map_cons, comma_separated, report_entry, String.append_assoc]

theorem stats_text_eq (m : std_map) (hne : m ≠ []) :
    echo_client_handler.stats_text m = report_text m := by
  unfold echo_client_handler.stats_text report_text
  have hpos : m.size > 0 := by
    unfold std_map.size
    exact List.length_pos.2 hne
  simp only [hpos, if_true]
  rw [append_entries_eq _ 0 m _ hne (by unfold std_map.size at *; omega)]

/-- C3. For a non-empty table (a `std::map`, so ordered), `send_stats_update`
sends one text message: the type discriminator, then the list of the
entries, each the digest in quotes, a colon and the count, in braces; there
is one entry per key of the table, in ascending key order, with one comma
between consecutive entries and none after the last. The table is cleared. -/
theorem send_stats_update_report (connection : connection_ptr) (h : echo_client_handler)
    (hne : h.m_msg_stats ≠ []) (hord : h.m_msg_stats.ordered) :
    echo_client_handler.send_stats_update connection h
      = ({ h with m_msg_stats := [] },
         [Effect.send connection
           ("\x7b\"type\":\"acks\",\"messages\":["
             ++ comma_separated (h.m_msg_stats.map report_entry) ++ "]\x7d") false]) ∧
    (h.m_msg_stats.map report_entry).length = h.m_msg_stats.keys.length ∧
    h.m_msg_stats.keys.Pairwise string_less := by
  refine ⟨?_, ?_, (std_map.ordered_iff_keys _).1 hord⟩
  · unfold echo_client_handler.send_stats_update
    have he : h.m_msg_stats.empty = false := by
      unfold std_map.empty
      cases hm : h.m_msg_stats with
      | nil => exact absurd hm hne
      | cons a b => rfl
    rw [he]
    simp only [Bool.false_eq_true, if_false]
    rw [stats_text_eq _ hne]
    rfl
  · simp [std_map.keys]

theorem send_stats_update_report_witness :
    (⟨[("0a", 2), ("ff", 1)], none⟩ : echo_client_handler).m_msg_stats ≠ [] ∧
    std_map.ordered [("0a", 2), ("ff", 1)] ∧
    echo_client_handler.send_stats_update 7 ⟨[("0a", 2), ("ff", 1)], none⟩
      = (⟨[], none⟩,
         [Effect.send 7
           "\x7b\"type\":\"acks\",\"messages\":[\x7b\"0a\":2\x7d,\x7b\"ff\":1\x7d]\x7d" false]) :=
  ⟨by decide, by unfold std_map.ordered; decide,
   (send_stats_update_report 7 ⟨[("0a", 2), ("ff", 1)], none⟩ (by decide)
      (by unfold std_map.ordered; decide)).1.trans (by decide)⟩

/-! ## The timer callbacks -/

theorem sent_reports_send_stats_update (connection : connection_ptr) (h : echo_client_handler) :
    sent_reports (echo_client_handler.send_stats_update connection h).2
      = (if h.m_msg_stats = [] then []
         else [(connection, echo_client_handler.stats_text h.m_msg_stats)]) ∧
    (echo_client_handler.send_stats_update connection h).1.m_msg_stats = [] ∧
    (echo_client_handler.send_stats_update connection h).1.m_timer = h.m_timer := by
  unfold echo_client_handler.send_stats_update std_map.empty
  cases hm : h.m_msg_stats with
  | nil => simp [sent_reports, hm]
  | cons a b => simp [sent_reports]

theorem on_timer_without_error (connection : connection_ptr) (h : echo_client_handler)
    (t : deadline_timer) (hts : h.m_timer = some t) :
    echo_client_handler.on_timer connection false h
      = some ({ (echo_client_handler.send_stats_update connection h).1 with
                  m_timer := some { expires_ms := 250, pending := [connection] } },
              (echo_client_handler.send_stats_update connection h).2) := by
  obtain ⟨_, _, htim⟩ := sent_reports_send_stats_update connection h
  simp only [echo_client_handler.on_timer, Bool.false_eq_true, if_false]
  rw [htim, hts]
  rfl

/-- C5. An invocation of `on_timer` on a handler whose timer exists: with an
error nothing is sent and the handler, table and timer included, stays as it
was; without an error a report is sent exactly when the table is non-empty,
the table is empty afterwards, the timer is armed again for the next 250 ms
in both cases, and a further error-free `on_timer` right after sends nothing. -/
theorem on_timer_behaviour (connection : connection_ptr) (h : echo_client_handler)
    (ht : h.m_timer ≠ none) :
    (∃ eff, echo_client_handler.on_timer connection true h = some (h, eff)
      ∧ sent_reports eff = []) ∧
    (∃ h1 eff, echo_client_handler.on_timer connection false h = some (h1, eff)
      ∧ sent_reports eff
          = (if h.m_msg_stats = [] then []
             else [(connection, echo_client_handler.stats_text h.m_msg_stats)])
      ∧ (sent_reports eff ≠ [] ↔ h.m_msg_stats ≠ [])
      ∧ h1.m_msg_stats = []
      ∧ h1.m_timer = some { expires_ms := 250, pending := [connection] }
      ∧ h1.timer_armed = true
      ∧ ∃ h2 eff2, echo_client_handler.on_timer connection false h1 = some (h2, eff2)
          ∧ sent_reports eff2 = []) := by
  constructor
  · exact ⟨[Effect.cout "on_timer error"], by simp [echo_client_handler.on_timer], rfl⟩
  · obtain ⟨t, hts⟩ := Option.ne_none_iff_exists'.1 ht
    obtain ⟨hs, htab, htim⟩ := sent_reports_send_stats_update connection h
    refine ⟨{ (echo_client_handler.send_stats_update connection h).1 with
                m_timer := some { expires_ms := 250, pending := [connection] } },
            (echo_client_handler.send_stats_update connection h).2, ?_, hs, ?_, htab, rfl, rfl, ?_⟩
    · simp only [echo_client_handler.on_timer, Bool.false_eq_true, if_false]
      rw [htim, hts]
      rfl
    · rw [hs]
      by_cases hm : h.m_msg_stats = []
      · simp [hm]
      · simp [hm]
    · refine ⟨{ m_msg_stats := [], m_timer := some { expires_ms := 250, pending := [connection] } },
              [], ?_, rfl⟩
      simp only [echo_client_handler.on_timer, Bool.false_eq_true, if_false]
      rw [htab]
      rfl

theorem on_timer_behaviour_witness :
    (⟨[("p1", 2), ("p2", 1)], some { expires_ms := 250, pending := [] }⟩
        : echo_client_handler).m_timer ≠ none ∧
    echo_client_handler.on_timer 3 true
        ⟨[("p1", 2), ("p2", 1)], some { expires_ms := 250, pending := [] }⟩
      = some (⟨[("p1", 2), ("p2", 1)], some { expires_ms := 250, pending := [] }⟩,
          [Effect.cout "on_timer error"]) ∧
    echo_client_handler.on_timer 3 false
        ⟨[("p1", 2), ("p2", 1)], some { expires_ms := 250, pending := [] }⟩
      = some (⟨[], some { expires_ms := 250, pending := [3] }⟩,
          [Effect.send 3
            "\x7b\"type\":\"acks\",\"messages\":[\x7b\"p1\":2\x7d,\x7b\"p2\":1\x7d]\x7d"
            false]) ∧
    ((∃ eff, echo_client_handler.on_timer 3 true
          ⟨[("p1", 2), ("p2", 1)], some { expires_ms := 250, pending := [] }⟩
        = some (⟨[("p1", 2), ("p2", 1)], some { expires_ms := 250, pending := [] }⟩, eff)
        ∧ sent_reports eff = []) ∧
     (∃ h1 eff, echo_client_handler.on_timer 3 false
          ⟨[("p1", 2), ("p2", 1)], some { expires_ms := 250, pending := [] }⟩
        = some (h1, eff)
        ∧ sent_reports eff
            = (if (⟨[("p1", 2), ("p2", 1)], some { expires_ms := 250, pending := [] }⟩
                  : echo_client_handler).m_msg_stats = [] then []
               else [(3, echo_client_handler.stats_text
                 (⟨[("p1", 2), ("p2", 1)], some { expires_ms := 250, pending := [] }⟩
                  : echo_client_handler).m_msg_stats)])
        ∧ (sent_reports eff ≠ []
            ↔ (⟨[("p1", 2), ("p2", 1)], some { expires_ms := 250, pending := [] }⟩
                : echo_client_handler).m_msg_stats ≠ [])
        ∧ h1.m_msg_stats = []
        ∧ h1.m_timer = some { expires_ms := 250, pending := [3] }
        ∧ h1.timer_armed = true
        ∧ ∃ h2 eff2, echo_client_handler.on_timer 3 false h1 = some (h2, eff2)
            ∧ sent_reports eff2 = [])) :=
  ⟨by decide, by decide, by decide,
   on_timer_behaviour 3 ⟨[("p1", 2), ("p2", 1)], some { expires_ms := 250, pending := [] }⟩
     (by decide)⟩

/-! ## `on_close` -/

/-- C10, as stated, fails: on a handler on which no `on_open` has run,
`on_close` does not do nothing; it uses the empty `m_timer` and faults. -/
theorem on_close_without_timer_counterexample :
    echo_client_handler.create.m_timer = none ∧
    echo_client_handler.on_close 0 echo_client_handler.create = none := by
  decide

/-- C10, amended. On a handler with a timer `on_close` does not fail: it
cancels the pending wait, so that no timer is armed, and leaves the table as
it was. A timer exists from the first `on_open` on: `on_open` leaves the
handler with a timer, and on a handler with a timer no callback fails or
removes it. -/
theorem on_close_cancels_timer (md5_hash_hex : String → String)
    (connection : connection_ptr) (h : echo_client_handler) (ht : h.m_timer ≠ none) :
    (∃ t h1, h.m_timer = some t
      ∧ echo_client_handler.on_close connection h = some (h1, [])
      ∧ h1.m_timer = some { expires_ms := t.expires_ms, pending := [] }
      ∧ h1.timer_armed = false
      ∧ h1.m_msg_stats = h.m_msg_stats) ∧
    (∀ c cb, ∃ h1 eff, h.call md5_hash_hex c cb = some (h1, eff) ∧ h1.m_timer ≠ none) ∧
    (∀ c h0, (echo_client_handler.on_open c h0).1.m_timer ≠ none) := by
  obtain ⟨t, hts⟩ := Option.ne_none_iff_exists'.1 ht
  refine ⟨⟨t, { h with m_timer := some { expires_ms := t.expires_ms, pending := [] } },
    hts, ?_, rfl, rfl, rfl⟩, ?_, ?_⟩
  · simp [echo_client_handler.on_close, hts, deadline_timer.cancel]
  · intro c cb
    cases cb with
    | on_open =>
      refine ⟨h, [], ?_, ht⟩
      simp [echo_client_handler.call, echo_client_handler.on_open, hts]
    | on_message msg =>
      exact ⟨_, _, rfl, ht⟩
    | on_fail =>
      exact ⟨_, _, rfl, ht⟩
    | on_timer error =>
      cases error with
      | true =>
        refine ⟨h, [Effect.cout "on_timer error"], ?_, ht⟩
        simp [echo_client_handler.call, echo_client_handler.on_timer]
      | false =>
        exact ⟨_, _, on_timer_without_error c h t hts, by simp⟩
    | on_close =>
      refine ⟨{ h with m_timer := some t.cancel }, [], ?_, by simp⟩
      simp [echo_client_handler.call, echo_client_handler.on_close, hts]
  · intro c h0
    unfold echo_client_handler.on_open
    cases hm : h0.m_timer <;> simp [hm]

theorem on_close_cancels_timer_witness :
    (echo_client_handler.on_open 3 echo_client_handler.create).1.m_timer ≠ none ∧
    (echo_client_handler.on_open 3 echo_client_handler.create).1.timer_armed = true ∧
    echo_client_handler.on_close 3 (echo_client_handler.on_open 3 echo_client_handler.create).1
      = some (⟨[], some { expires_ms := 250, pending := [] }⟩, []) ∧
    ∃ t h1, (echo_client_handler.on_open 3 echo_client_handler.create).1.m_timer = some t
      ∧ echo_client_handler.on_close 3
          (echo_client_handler.on_open 3 echo_client_handler.create).1 = some (h1, [])
      ∧ h1.m_timer = some { expires_ms := t.expires_ms, pending := [] }
      ∧ h1.timer_armed = false
      ∧ h1.m_msg_stats
          = (echo_client_handler.on_open 3 echo_client_handler.create).1.m_msg_stats :=
  ⟨by decide, by decide, by decide,
   (on_close_cancels_timer id 3 (echo_client_handler.on_open 3 echo_client_handler.create).1
      (by decide)).1⟩

/-! ## Machine integers -/

theorem wrap_int_of_fits {x : Int} (h1 : INT_MIN ≤ x) (h2 : x ≤ INT_MAX) : wrap_int x = x := by
  unfold INT_MIN at h1
  unfold INT_MAX at h2
  unfold wrap_int
  omega

theorem wrap_int_le (x : Int) : wrap_int x ≤ 2147483647 := by
  unfold wrap_int
  omega

/-! ## The events of the loop -/

theorem loop_pass_state (uri : String) (batch_size : Int) (n : Nat) (st : main_state) :
    ((if Int.tmod (n : Int) batch_size = 0 then st.emit (Event.sleep 1)
        else st).insert_connect uri).events = st.events ++ loop_pass_events uri batch_size n ∧
    ((if Int.tmod (n : Int) batch_size = 0 then st.emit (Event.sleep 1)
        else st).insert_connect uri).handlers = st.handlers ∧
    ((if Int.tmod (n : Int) batch_size = 0 then st.emit (Event.sleep 1)
        else st).insert_connect uri).endpoint.m_handler = st.endpoint.m_handler ∧
    ((if Int.tmod (n : Int) batch_size = 0 then st.emit (Event.sleep 1)
        else st).insert_connect uri).endpoint.next_connection
      = st.endpoint.next_connection + 1 ∧
    (st.connections = List.range st.endpoint.next_connection →
      ((if Int.tmod (n : Int) batch_size = 0 then st.emit (Event.sleep 1)
          else st).insert_connect uri).connections
        = List.range (st.endpoint.next_connection + 1)) := by
  by_cases ht : Int.tmod (n : Int) batch_size = 0
  · simp only [ht, if_true, main_state.insert_connect, main_state.emit, endpoint.connect,
      loop_pass_events, List.append_assoc, true_and]
    intro hc
    rw [hc, List.range_succ]
    simp
  · simp only [ht, if_false, main_state.insert_connect, endpoint.connect,
      loop_pass_events, List.nil_append, true_and]
    intro hc
    rw [hc, List.range_succ]
    simp

theorem ramp_up_events (uri : String) (num_connections batch_size : Int) (fuel : Nat) :
    ∀ (n k : Nat) (st : main_state),
      k = (wrap_int (num_connections - 1) - (n : Int)).toNat → k ≤ fuel →
      (0 < k → batch_size ≠ 0) →
      ∃ st1, ramp_up uri num_connections batch_size fuel (n : Int) st = some st1
        ∧ st1.events = st.events ++ loop_events uri batch_size n k
        ∧ st1.handlers = st.handlers
        ∧ st1.endpoint.m_handler = st.endpoint.m_handler
        ∧ st1.endpoint.next_connection = st.endpoint.next_connection + k
        ∧ (st.connections = List.range st.endpoint.next_connection →
            st1.connections = List.range (st.endpoint.next_connection + k)) := by
  induction fuel with
  | zero =>
    intro n k st hk hf _
    have hk0 : k = 0 := by omega
    have hlt : ¬ ((n : Int) < wrap_int (num_connections - 1)) := by omega
    subst hk0
    refine ⟨st, ?_, ?_, rfl, rfl, rfl, fun hc => hc⟩
    · simp only [ramp_up, hlt, if_false]
    · simp [loop_events]
  | succ fuel ih =>
    intro n k st hk hf hb
    by_cases hlt : (n : Int) < wrap_int (num_connections - 1)
    · have hM := wrap_int_le (num_connections - 1)
      have hkpos : 0 < k := by omega
      have hbs : batch_size ≠ 0 := hb hkpos
      have hw : wrap_int ((n : Int) + 1) = ((n + 1 : Nat) : Int) := by
        rw [wrap_int_of_fits] <;> simp [INT_MIN, INT_MAX] <;> omega
      obtain ⟨k1, hk1⟩ : ∃ k1, k = k1 + 1 := ⟨k - 1, by omega⟩
      subst hk1
      simp only [ramp_up, hlt, if_true, hbs, if_false]
      rw [hw]
      obtain ⟨p1, p2, p3, p4, p5⟩ := loop_pass_state uri batch_size n st
      obtain ⟨st1, h1, h2, h3, h4, h5, h6⟩ := ih (n + 1) k1
        ((if Int.tmod (n : Int) batch_size = 0 then st.emit (Event.sleep 1)
          else st).insert_connect uri)
        (by push_cast; omega) (by omega) (fun _ => hbs)
      refine ⟨st1, h1, ?_, ?_, ?_, ?_, ?_⟩
      · rw [h2, p1, loop_events, List.append_assoc]
      · rw [h3, p2]
      · rw [h4, p3]
      · rw [h5, p4, Nat.add_assoc, Nat.add_comm 1 k1]
      · intro hc
        rw [h6 (by rw [p4]; exact p5 hc), p4, Nat.add_assoc, Nat.add_comm 1 k1]
    · have hk0 : k = 0 := by omega
      subst hk0
      refine ⟨st, ?_, ?_, rfl, rfl, rfl, fun hc => hc⟩
      · simp only [ramp_up, hlt, if_false]
      · simp [loop_events]

/-- A run of `main` whose connection count fits in an `int`: its events, the
handler objects it constructs and the connections it establishes. -/
theorem main_run (atoi : String → Int) (os : OS) (argv : List String)
    (uri : String) (nb bs : Int) (usage : List Event)
    (hargs : arguments atoi argv = (uri, nb, bs, usage))
    (h1 : INT_MIN < nb * bs) (h2 : nb * bs ≤ INT_MAX) :
    ∃ st, main atoi os argv = some st ∧
      st.events = usage ++ negotiate os (nb * bs)
        ++ [Event.connect uri, Event.thread_run,
            Event.cout ("launching " ++ toString (nb * bs) ++ " connections to "
              ++ uri ++ " in batches of " ++ toString bs)]
        ++ loop_events uri bs 0 (nb * bs - 1).toNat
        ++ [Event.cout "complete", Event.join, Event.cout "done"] ∧
      st.handlers = [echo_client_handler.create] ∧
      st.endpoint.get_handler = 0 ∧
      st.connections = List.range (1 + (nb * bs - 1).toNat) := by
  have hN : wrap_int (nb * bs) = nb * bs := wrap_int_of_fits (le_of_lt h1) h2
  have hM : wrap_int (nb * bs - 1) = nb * bs - 1 := by
    apply wrap_int_of_fits <;> simp only [INT_MIN, INT_MAX] at * <;> omega
  have hb : 0 < (nb * bs - 1).toNat → bs ≠ 0 := by
    intro hpos hz
    rw [hz] at hpos
    simp at hpos
  unfold main
  rw [hargs]
  simp only [hN, hM]
  obtain ⟨st1, hr, he, hh, hp, hn, hc⟩ := ramp_up_events uri (nb * bs) bs (nb * bs - 1).toNat 0
    (nb * bs - 1).toNat
    ((({ events := usage ++ negotiate os (nb * bs),
         handlers := [echo_client_handler.create],
         endpoint := endpoint.create 0,
         connections := [] } : main_state).insert_connect uri).emit Event.thread_run |>.emit
      (Event.cout ("launching " ++ toString (nb * bs) ++ " connections to "
        ++ uri ++ " in batches of " ++ toString bs)))
    (by rw [hM]; simp) (le_refl _) hb
  simp only [Nat.cast_zero] at hr
  rw [hr]
  refine ⟨_, rfl, ?_, ?_, ?_, ?_⟩
  · simp only [main_state.emit, he, main_state.insert_connect, endpoint.connect,
      List.append_assoc, List.cons_append, List.nil_append]
  · simp only [main_state.emit, hh, main_state.insert_connect]
  · simp only [main_state.emit, endpoint.get_handler, hp, main_state.insert_connect,
      endpoint.connect, endpoint.create]
  · simp only [main_state.emit]
    rw [hc (by
      simp only [main_state.emit, main_state.insert_connect, endpoint.connect,
        endpoint.create]
      decide)]
    simp [main_state.emit, main_state.insert_connect, endpoint.connect, endpoint.create]

/-- The events of a run of `main` whose connection count fits in an `int`. -/
theorem main_events (atoi : String → Int) (os : OS) (argv : List String)
    (uri : String) (nb bs : Int) (usage : List Event)
    (hargs : arguments atoi argv = (uri, nb, bs, usage))
    (h1 : INT_MIN < nb * bs) (h2 : nb * bs ≤ INT_MAX) :
    ∃ st, main atoi os argv = some st ∧
      st.events = usage ++ negotiate os (nb * bs)
        ++ [Event.connect uri, Event.thread_run,
            Event.cout ("launching " ++ toString (nb * bs) ++ " connections to "
              ++ uri ++ " in batches of " ++ toString bs)]
        ++ loop_events uri bs 0 (nb * bs - 1).toNat
        ++ [Event.cout "complete", Event.join, Event.cout "done"] := by
  obtain ⟨st, hst, hev, _⟩ := main_run atoi os argv uri nb bs usage hargs h1 h2
  exact ⟨st, hst, hev⟩

/-! ## Observations on lists of events -/

theorem connect_count_append (a b : List Event) :
    connect_count (a ++ b) = connect_count a + connect_count b := by
  induction a with
  | nil => simp [connect_count]
  | cons e rest ih =>
    cases e <;> simp [connect_count, ih]
    omega

theorem pause_total_append (a b : List Event) :
    pause_total (a ++ b) = pause_total a + pause_total b := by
  induction a with
  | nil => simp [pause_total]
  | cons e rest ih =>
    cases e <;> simp [pause_total, ih]
    omega

theorem setrlimit_calls_append (a b : List Event) :
    setrlimit_calls (a ++ b) = setrlimit_calls a ++ setrlimit_calls b := by
  induction a with
  | nil => simp [setrlimit_calls]
  | cons e rest ih =>
    cases e <;> simp [setrlimit_calls, ih]

theorem connect_count_plain (a : List Event) (h : ∀ e ∈ a, e.plain = true) :
    connect_count a = 0 := by
  induction a with
  | nil => rfl
  | cons e rest ih =>
    have he := h e (List.mem_cons_self _ _)
    have hr := ih (fun x hx => h x (List.mem_cons_of_mem _ hx))
    cases e <;> simp [connect_count, hr, Event.plain] at he ⊢

theorem pause_total_plain (a : List Event) (h : ∀ e ∈ a, e.plain = true) :
    pause_total a = 0 := by
  induction a with
  | nil => rfl
  | cons e rest ih =>
    have he := h e (List.mem_cons_self _ _)
    have hr := ih (fun x hx => h x (List.mem_cons_of_mem _ hx))
    cases e <;> simp [pause_total, hr, Event.plain] at he ⊢

theorem setrlimit_calls_plain (a : List Event) (h : ∀ e ∈ a, e.plain = true) :
    setrlimit_calls a = [] := by
  induction a with
  | nil => rfl
  | cons e rest ih =>
    have he := h e (List.mem_cons_self _ _)
    have hr := ih (fun x hx => h x (List.mem_cons_of_mem _ hx))
    cases e <;> simp [setrlimit_calls, hr, Event.plain] at he ⊢

theorem pauses_before_connects_skip (acc : List Nat) (a b : List Event)
    (h : ∀ e ∈ a, (∀ u, e ≠ Event.connect u) ∧ (∀ s, e ≠ Event.sleep s)) :
    pauses_before_connects acc (a ++ b) = pauses_before_connects acc b := by
  induction a with
  | nil => rfl
  | cons e rest ih =>
    have he := h e (List.mem_cons_self _ _)
    have hr := ih (fun x hx => h x (List.mem_cons_of_mem _ hx))
    cases e with
    | connect u => exact absurd rfl (he.1 u)
    | sleep s => exact absurd rfl (he.2 s)
    | cout l => simpa [pauses_before_connects] using hr
    | getrlimit => simpa [pauses_before_connects] using hr
    | setrlimit rl => simpa [pauses_before_connects] using hr
    | thread_run => simpa [pauses_before_connects] using hr
    | join => simpa [pauses_before_connects] using hr

theorem usage_plain (atoi : String → Int) (argv : List String) :
    ∀ e ∈ (arguments atoi argv).2.2.2, e.plain = true := by
  unfold arguments
  split_ifs <;> simp [Event.plain]

theorem negotiate_no_connect_or_pause (os : OS) (n : Int) :
    ∀ e ∈ negotiate os n, (∀ u, e ≠ Event.connect u) ∧ (∀ s, e ≠ Event.sleep s) := by
  intro e he
  simp only [negotiate] at he
  split_ifs at he <;>
    simp only [List.mem_cons, List.mem_singleton, List.not_mem_nil, or_false] at he <;>
    (constructor <;> intro x hx <;> subst hx <;> simp at he)

theorem plain_no_connect_or_pause (a : List Event) (h : ∀ e ∈ a, e.plain = true) :
    ∀ e ∈ a, (∀ u, e ≠ Event.connect u) ∧ (∀ s, e ≠ Event.sleep s) := by
  intro e he
  have hp := h e he
  constructor
  · intro u hu; subst hu; simp [Event.plain] at hp
  · intro s hs; subst hs; simp [Event.plain] at hp

theorem connect_count_negotiate (os : OS) (n : Int) : connect_count (negotiate os n) = 0 := by
  simp only [negotiate]
  split_ifs <;> simp [connect_count]

theorem pause_total_negotiate (os : OS) (n : Int) : pause_total (negotiate os n) = 0 := by
  simp only [negotiate]
  split_ifs <;> simp [pause_total]

theorem connect_count_loop_events (uri : String) (bs : Int) (i k : Nat) :
    connect_count (loop_events uri bs i k) = k := by
  induction k generalizing i with
  | zero => rfl
  | succ k ih =>
    simp only [loop_events, loop_pass_events, connect_count_append, ih]
    split_ifs <;> simp [connect_count] <;> omega

theorem setrlimit_calls_loop_events (uri : String) (bs : Int) (i k : Nat) :
    setrlimit_calls (loop_events uri bs i k) = [] := by
  induction k generalizing i with
  | zero => rfl
  | succ k ih =>
    simp only [loop_events, loop_pass_events, setrlimit_calls_append, ih]
    split_ifs <;> simp [setrlimit_calls]

theorem pauses_before_connects_loop_events (uri : String) (bs : Int) (i k : Nat)
    (rest : List Event) :
    pauses_before_connects [] (loop_events uri bs i k ++ rest)
      = (List.range' i k).map (fun (j : Nat) => if Int.tmod (j : Int) bs = 0 then [1] else [])
        ++ pauses_before_connects [] rest := by
  induction k generalizing i with
  | zero => simp [loop_events]
  | succ k ih =>
    simp only [loop_events, loop_pass_events, List.range'_succ, List.map_cons,
      List.append_assoc, List.cons_append]
    by_cases ht : Int.tmod (i : Int) bs = 0
    · simp [ht, pauses_before_connects, ih]
    · simp [ht, pauses_before_connects, ih]

theorem loop_events_succ (uri : String) (bs : Int) (i k : Nat) :
    loop_events uri bs i (k + 1) = loop_events uri bs i k ++ loop_pass_events uri bs (i + k) := by
  induction k generalizing i with
  | zero => simp [loop_events]
  | succ k ih =>
    rw [loop_events, ih (i + 1), loop_events, List.append_assoc]
    congr 3
    omega

theorem pause_total_loop_events_bound (uri : String) (b k : Nat) (hb : 1 ≤ b) :
    k ≤ pause_total (loop_events uri (b : Int) 0 k) * b := by
  induction k with
  | zero => simp
  | succ k ih =>
    rw [loop_events_succ, pause_total_append]
    simp only [loop_pass_events, Nat.zero_add, pause_total_append]
    rw [← Int.ofNat_tmod]
    by_cases hm : k % b = 0
    · simp only [hm, Nat.cast_zero, if_true, pause_total]
      rw [Nat.add_mul]
      simp only [Nat.zero_add, Nat.add_zero, Nat.one_mul]
      omega
    · have hm2 : ¬ ((k % b : Nat) : Int) = 0 := by exact_mod_cast hm
      simp only [hm2, if_false, pause_total, Nat.add_zero]
      have hne : pause_total (loop_events uri (b : Int) 0 k) * b ≠ k := by
        intro h
        apply hm
        rw [← h]
        exact Nat.mul_mod_left _ _
      omega

/-! ## The run of `main` -/

theorem arguments_usage_plain {atoi : String → Int} {argv : List String} {uri : String}
    {nb bs : Int} {usage : List Event} (hargs : arguments atoi argv = (uri, nb, bs, usage)) :
    ∀ e ∈ usage, e.plain = true := by
  have h := usage_plain atoi argv
  rw [hargs] at h
  exact h

theorem main_connect_count (atoi : String → Int) (os : OS) (argv : List String)
    (uri : String) (nb bs : Int) (usage : List Event)
    (hargs : arguments atoi argv = (uri, nb, bs, usage))
    (h1 : INT_MIN < nb * bs) (h2 : nb * bs ≤ INT_MAX) :
    ∃ st, main atoi os argv = some st ∧ connect_count st.events = 1 + (nb * bs - 1).toNat := by
  obtain ⟨st, hst, hev⟩ := main_events atoi os argv uri nb bs usage hargs h1 h2
  refine ⟨st, hst, ?_⟩
  rw [hev]
  simp only [connect_count_append, connect_count_negotiate, connect_count_loop_events,
    connect_count_plain usage (arguments_usage_plain hargs), connect_count]
  omega

/-- C1. With `num_batches ≥ 1`, `batch_size ≥ 1` and a product that fits in
an `int`, `main` runs to its end and issues exactly `num_batches * batch_size`
connect calls: the first one and one in each of the
`num_batches * batch_size - 1` passes of the loop. -/
theorem main_connect_calls (atoi : String → Int) (os : OS) (argv : List String)
    (uri : String) (num_batches batch_size : Int) (usage : List Event)
    (hargs : arguments atoi argv = (uri, num_batches, batch_size, usage))
    (h1 : 1 ≤ num_batches) (h2 : 1 ≤ batch_size) (h3 : num_batches * batch_size ≤ INT_MAX) :
    ∃ st, main atoi os argv = some st
      ∧ connect_count st.events = 1 + (num_batches * batch_size - 1).toNat
      ∧ (connect_count st.events : Int) = num_batches * batch_size := by
  have hpos : 1 ≤ num_batches * batch_size := by nlinarith
  obtain ⟨st, hst, hc⟩ := main_connect_count atoi os argv uri num_batches batch_size usage hargs
    (by simp only [INT_MIN]; omega) h3
  refine ⟨st, hst, hc, ?_⟩
  rw [hc]
  omega

theorem main_connect_calls_witness :
    (1 : Int) ≤ 2 ∧ (1 : Int) ≤ 3 ∧ (2 : Int) * 3 ≤ INT_MAX ∧
    ∃ st, main example_atoi example_os ["stress_client", "ws://localhost:9002/", "2", "3"]
        = some st
      ∧ connect_count st.events = 1 + ((2 : Int) * 3 - 1).toNat
      ∧ (connect_count st.events : Int) = 2 * 3 :=
  ⟨by decide, by decide, by decide,
   main_connect_calls example_atoi example_os
     ["stress_client", "ws://localhost:9002/", "2", "3"] "ws://localhost:9002/" 2 3 []
     (by decide) (by decide) (by decide) (by decide)⟩

/-- C6. With `num_batches ≥ 1`, `batch_size ≥ 1` and a product that fits in
an `int`: no pause precedes the first connect, the connect of the loop pass
with index `i` is preceded by one pause of one second when
`i mod batch_size = 0` and by none otherwise, and the pauses add up to at
least `num_batches - 1` seconds. -/
theorem main_batch_pauses (atoi : String → Int) (os : OS) (argv : List String)
    (uri : String) (num_batches batch_size : Int) (usage : List Event)
    (hargs : arguments atoi argv = (uri, num_batches, batch_size, usage))
    (h1 : 1 ≤ num_batches) (h2 : 1 ≤ batch_size) (h3 : num_batches * batch_size ≤ INT_MAX) :
    ∃ st, main atoi os argv = some st
      ∧ pauses_before_connects [] st.events
          = [] :: (List.range (num_batches * batch_size - 1).toNat).map
              (fun (i : Nat) => if (i : Int) % batch_size = 0 then [1] else [])
      ∧ num_batches - 1 ≤ (pause_total st.events : Int) := by
  have hpos : 1 ≤ num_batches * batch_size := by nlinarith
  obtain ⟨st, hst, hev⟩ := main_events atoi os argv uri num_batches batch_size usage hargs
    (by simp only [INT_MIN]; omega) h3
  have hu := arguments_usage_plain hargs
  refine ⟨st, hst, ?_, ?_⟩
  · rw [hev]
    simp only [List.append_assoc]
    rw [pauses_before_connects_skip _ _ _ (plain_no_connect_or_pause usage hu),
      pauses_before_connects_skip _ _ _ (negotiate_no_connect_or_pause os _)]
    simp only [List.cons_append, List.nil_append, pauses_before_connects, List.append_eq]
    rw [pauses_before_connects_loop_events]
    simp only [pauses_before_connects, List.append_nil, List.range_eq_range']
    congr 1
    apply List.map_congr_left
    intro i _
    rw [Int.tmod_eq_emod (by omega) (by omega)]
  · rw [hev]
    simp only [pause_total_append, pause_total_negotiate, pause_total_plain usage hu,
      pause_total]
    lift num_batches to ℕ using (by omega) with a
    lift batch_size to ℕ using (by omega) with b
    have hb : 1 ≤ b := by exact_mod_cast h2
    have ha : 1 ≤ a := by exact_mod_cast h1
    have hk : ((a : Int) * (b : Int) - 1).toNat = a * b - 1 := by
      have : ((a * b : Nat) : Int) = (a : Int) * (b : Int) := by push_cast; rfl
      omega
    rw [hk]
    have hbound := pause_total_loop_events_bound uri b (a * b - 1) hb
    generalize pause_total (loop_events uri (b : Int) 0 (a * b - 1)) = p at hbound ⊢
    have hp : a ≤ p + 1 := by
      by_contra hcon
      have h4 : (p + 2) * b ≤ a * b := Nat.mul_le_mul_right b (by omega)
      rw [Nat.add_mul] at h4
      omega
    omega

theorem main_batch_pauses_witness :
    (1 : Int) ≤ 2 ∧ (1 : Int) ≤ 3 ∧ (2 : Int) * 3 ≤ INT_MAX ∧
    ∃ st, main example_atoi example_os ["stress_client", "ws://localhost:9002/", "2", "3"]
        = some st
      ∧ pauses_before_connects [] st.events
          = [] :: (List.range ((2 : Int) * 3 - 1).toNat).map
              (fun (i : Nat) => if (i : Int) % 3 = 0 then [1] else [])
      ∧ (2 : Int) - 1 ≤ (pause_total st.events : Int) :=
  ⟨by decide, by decide, by decide,
   main_batch_pauses example_atoi example_os
     ["stress_client", "ws://localhost:9002/", "2", "3"] "ws://localhost:9002/" 2 3 []
     (by decide) (by decide) (by decide) (by decide)⟩

/-! ## The limit negotiation -/

theorem ideal_size_eq {n : Int} (h1 : 0 ≤ 200 + n) (h2 : 200 + n ≤ INT_MAX) :
    ideal_size n = (200 + n).toNat := by
  unfold INT_MAX at h2
  unfold ideal_size to_rlim_t wrap_int RLIM_T_RANGE
  omega

theorem setrlimit_calls_negotiate (os : OS) (n : Int) (hget : os.getrlimit_result = 0) :
    setrlimit_calls (negotiate os n)
      = if os.limits.rlim_cur < ideal_size n
        then [{ rlim_cur := ideal_size n, rlim_max := max os.limits.rlim_max (ideal_size n) }]
        else [] := by
  simp only [negotiate, hget, if_true]
  by_cases hc : os.limits.rlim_cur < ideal_size n
  · simp only [hc, if_true, setrlimit_calls]
    by_cases hm : os.limits.rlim_max < ideal_size n
    · simp only [hm, if_true]
      rw [max_eq_right (le_of_lt hm)]
      split_ifs <;> rfl
    · simp only [hm, if_false]
      rw [max_eq_left (not_lt.1 hm)]
      split_ifs <;> rfl
  · simp only [hc, if_false, setrlimit_calls]

/-- C7. With `ideal = 200 + num_batches * batch_size` (a value from 0 to
`INT_MAX`) and a `getrlimit` that succeeds: `main` calls `setrlimit` not at
all when the soft limit is at least `ideal`, and once, asking for the soft
limit `ideal` and the hard limit `max(hard, ideal)`, when the soft limit is
below `ideal`; when that call succeeds the soft limit is `ideal`. -/
theorem main_limit_negotiation (atoi : String → Int) (os : OS) (argv : List String)
    (uri : String) (num_batches batch_size : Int) (usage : List Event)
    (hargs : arguments atoi argv = (uri, num_batches, batch_size, usage))
    (hget : os.getrlimit_result = 0)
    (h1 : 0 ≤ 200 + num_batches * batch_size)
    (h2 : 200 + num_batches * batch_size ≤ INT_MAX) :
    ∃ st, main atoi os argv = some st
      ∧ ((200 + num_batches * batch_size).toNat ≤ os.limits.rlim_cur →
          setrlimit_calls st.events = [])
      ∧ (os.limits.rlim_cur < (200 + num_batches * batch_size).toNat →
          setrlimit_calls st.events
            = [{ rlim_cur := (200 + num_batches * batch_size).toNat,
                 rlim_max := max os.limits.rlim_max (200 + num_batches * batch_size).toNat }]
          ∧ ((os.setrlimit
                { rlim_cur := (200 + num_batches * batch_size).toNat,
                  rlim_max := max os.limits.rlim_max
                    (200 + num_batches * batch_size).toNat }).1 = 0 →
              (os.limits_after
                { rlim_cur := (200 + num_batches * batch_size).toNat,
                  rlim_max := max os.limits.rlim_max
                    (200 + num_batches * batch_size).toNat }).rlim_cur
                = (200 + num_batches * batch_size).toNat)) := by
  obtain ⟨st, hst, hev⟩ := main_events atoi os argv uri num_batches batch_size usage hargs
    (by simp only [INT_MIN, INT_MAX] at *; omega) (by simp only [INT_MAX] at *; omega)
  have hcalls : setrlimit_calls st.events
      = if os.limits.rlim_cur < (200 + num_batches * batch_size).toNat
        then [{ rlim_cur := (200 + num_batches * batch_size).toNat,
                rlim_max := max os.limits.rlim_max (200 + num_batches * batch_size).toNat }]
        else [] := by
    rw [hev]
    simp only [setrlimit_calls_append, setrlimit_calls_loop_events,
      setrlimit_calls_plain usage (arguments_usage_plain hargs),
      setrlimit_calls_negotiate os _ hget, ideal_size_eq h1 h2, setrlimit_calls,
      List.nil_append, List.append_nil]
  refine ⟨st, hst, ?_, ?_⟩
  · intro hle
    rw [hcalls, if_neg (not_lt.2 hle)]
  · intro hlt
    refine ⟨by rw [hcalls, if_pos hlt], ?_⟩
    intro hok
    simp only [OS.limits_after, hok, if_true]

theorem main_limit_negotiation_witness :
    example_os.getrlimit_result = 0 ∧ (0 : Int) ≤ 200 + 1 * 3 ∧ (200 : Int) + 1 * 3 ≤ INT_MAX ∧
    example_os.limits.rlim_cur < ((200 : Int) + 1 * 3).toNat ∧
    (example_os.setrlimit { rlim_cur := 203, rlim_max := 205 }).1 = 0 ∧
    ∃ st, main example_atoi example_os ["stress_client", "ws://localhost:9002/", "1", "3"]
        = some st
      ∧ (((200 : Int) + 1 * 3).toNat ≤ example_os.limits.rlim_cur →
          setrlimit_calls st.events = [])
      ∧ (example_os.limits.rlim_cur < ((200 : Int) + 1 * 3).toNat →
          setrlimit_calls st.events
            = [{ rlim_cur := ((200 : Int) + 1 * 3).toNat,
                 rlim_max := max example_os.limits.rlim_max ((200 : Int) + 1 * 3).toNat }]
          ∧ ((example_os.setrlimit
                { rlim_cur := ((200 : Int) + 1 * 3).toNat,
                  rlim_max := max example_os.limits.rlim_max
                    ((200 : Int) + 1 * 3).toNat }).1 = 0 →
              (example_os.limits_after
                { rlim_cur := ((200 : Int) + 1 * 3).toNat,
                  rlim_max := max example_os.limits.rlim_max
                    ((200 : Int) + 1 * 3).toNat }).rlim_cur
                = ((200 : Int) + 1 * 3).toNat)) :=
  ⟨by decide, by decide, by decide, by decide, by decide,
   main_limit_negotiation example_atoi example_os
     ["stress_client", "ws://localhost:9002/", "1", "3"] "ws://localhost:9002/" 1 3 []
     (by decide) (by decide) (by decide) (by decide)⟩

/-- C9. In the negotiation of `main`, when the raise is attempted and
`setrlimit` fails for lack of permission, that is, returns `-1` and sets
`errno` to `EPERM`, the returned `-1` is what is compared with `EPERM`: the
general diagnostic with the error number is printed, not the one for
insufficient permissions. -/
theorem permission_failure_takes_general_branch (os : OS) (num_connections : Int)
    (hget : os.getrlimit_result = 0)
    (hlow : os.limits.rlim_cur < ideal_size num_connections)
    (hfail : os.setrlimit
        { rlim_cur := ideal_size num_connections,
          rlim_max := max os.limits.rlim_max (ideal_size num_connections) } = (-1, EPERM)) :
    negotiate os num_connections
      = [Event.getrlimit,
         Event.cout ("Attempting to raise system file descriptor limit from "
           ++ toString os.limits.rlim_cur ++ " to " ++ toString (ideal_size num_connections)),
         Event.setrlimit
           { rlim_cur := ideal_size num_connections,
             rlim_max := max os.limits.rlim_max (ideal_size num_connections) },
         Event.cout ("Failed. This server will be limited to " ++ toString os.limits.rlim_cur
           ++ " concurrent connections. Error code: " ++ toString EPERM
           ++ " system max: " ++ toString os.limits.rlim_max)] := by
  have hreq : (if os.limits.rlim_max < ideal_size num_connections
        then ({ rlim_cur := ideal_size num_connections,
                rlim_max := ideal_size num_connections } : rlimit)
        else { rlim_cur := ideal_size num_connections, rlim_max := os.limits.rlim_max })
      = { rlim_cur := ideal_size num_connections,
          rlim_max := max os.limits.rlim_max (ideal_size num_connections) } := by
    by_cases hm : os.limits.rlim_max < ideal_size num_connections
    · rw [if_pos hm, max_eq_right (le_of_lt hm)]
    · rw [if_neg hm, max_eq_left (not_lt.1 hm)]
  have h1 : ¬ ((-1 : Int) = 0) := by decide
  have h2 : ¬ ((-1 : Int) = EPERM) := by decide
  simp only [negotiate, hget, hlow, if_true, hreq, hfail, h1, h2, if_false]

theorem permission_failure_takes_general_branch_witness :
    example_os.getrlimit_result = 0 ∧
    example_os.limits.rlim_cur < ideal_size 6 ∧
    example_os.setrlimit { rlim_cur := 206, rlim_max := 206 } = (-1, EPERM) ∧
    negotiate example_os 6
      = [Event.getrlimit,
         Event.cout "Attempting to raise system file descriptor limit from 202 to 206",
         Event.setrlimit { rlim_cur := 206, rlim_max := 206 },
         Event.cout "Failed. This server will be limited to 202 concurrent connections. Error code: 1 system max: 205"] ∧
    (main example_atoi example_os ["stress_client", "ws://localhost:9002/", "2", "3"]).map
        (fun st => st.events.take 4) = some (negotiate example_os 6) :=
  ⟨by decide, by decide, by decide,
   (permission_failure_takes_general_branch example_os 6 (by decide) (by decide)
      (by decide)).trans (by decide),
   by decide⟩

/-! ## No validation of the arguments -/

/-- C8, as stated, fails: with `num_batches = 0` and `batch_size = 3` the run
is not rejected, and one connect call is issued. -/
theorem argument_validation_counterexample :
    arguments example_atoi ["stress_client", "ws://localhost:9002/", "0", "3"]
      = ("ws://localhost:9002/", 0, 3, []) ∧
    (0 : Int) < 1 ∧
    (main example_atoi example_os ["stress_client", "ws://localhost:9002/", "0", "3"]).map
        (fun st => connect_count st.events) = some 1 := by
  decide

/-- C8, amended. `main` does not validate `num_batches` and `batch_size`:
also when one of them is below 1 (their product `p` being an `int` above
`INT_MIN`), it runs to its end, issues the first connect call
unconditionally, and issues `max(1, p)` connect calls in all. -/
theorem main_connects_without_validation (atoi : String → Int) (os : OS) (argv : List String)
    (uri : String) (num_batches batch_size : Int) (usage : List Event)
    (hargs : arguments atoi argv = (uri, num_batches, batch_size, usage))
    (_hlow : num_batches < 1 ∨ batch_size < 1)
    (h1 : INT_MIN < num_batches * batch_size) (h2 : num_batches * batch_size ≤ INT_MAX) :
    ∃ st, main atoi os argv = some st
      ∧ 1 ≤ connect_count st.events
      ∧ (connect_count st.events : Int) = max 1 (num_batches * batch_size) := by
  obtain ⟨st, hst, hc⟩ := main_connect_count atoi os argv uri num_batches batch_size usage hargs
    h1 h2
  refine ⟨st, hst, by omega, ?_⟩
  rw [hc]
  rcases le_total 1 (num_batches * batch_size) with h | h
  · rw [max_eq_right h]; omega
  · rw [max_eq_left h]; omega

theorem main_connects_without_validation_witness :
    ((-2 : Int) < 1 ∨ (-3 : Int) < 1) ∧ INT_MIN < (-2 : Int) * (-3) ∧
    (-2 : Int) * (-3) ≤ INT_MAX ∧
    ∃ st, main (fun s => if s = "-2" then -2 else -3) example_os
        ["stress_client", "ws://localhost:9002/", "-2", "-3"] = some st
      ∧ 1 ≤ connect_count st.events
      ∧ (connect_count st.events : Int) = max 1 ((-2 : Int) * (-3)) :=
  ⟨by decide, by decide, by decide,
   main_connects_without_validation (fun s => if s = "-2" then -2 else -3) example_os
     ["stress_client", "ws://localhost:9002/", "-2", "-3"] "ws://localhost:9002/" (-2) (-3) []
     (by decide) (by decide) (by decide) (by decide)⟩

/-! ## One handler object for all connections -/

/-- C4, as stated, fails: run for two connections, `main` establishes the
connections 0 and 1 but constructs one handler object only, so the two
cannot each have a handler of their own. On that one object an `on_message`
for connection 0 changes the table, an `on_open` for connection 0 creates
the timer, and after `on_open` for connection 1 and `on_message` for
connection 0 the report sent on connection 1 counts the message that arrived
on connection 0. -/
theorem connections_share_handler_counterexample :
    (main example_atoi example_os ["stress_client", "ws://localhost:9002/", "2", "1"]).map
        (fun st => (st.connections, st.handlers.length, st.endpoint.get_handler))
      = some ([0, 1], 1, 0) ∧
    (main example_atoi example_os ["stress_client", "ws://localhost:9002/", "2", "1"]).bind
        (fun st => (invoke id st.handlers 0 0 (Callback.on_message ⟨"p"⟩)).map
          (fun r => table_of r.1 0))
      ≠ (main example_atoi example_os ["stress_client", "ws://localhost:9002/", "2", "1"]).map
          (fun st => table_of st.handlers 0) ∧
    (main example_atoi example_os ["stress_client", "ws://localhost:9002/", "2", "1"]).bind
        (fun st => (invoke id st.handlers 0 0 Callback.on_open).map
          (fun r => timer_of r.1 0))
      ≠ (main example_atoi example_os ["stress_client", "ws://localhost:9002/", "2", "1"]).map
          (fun st => timer_of st.handlers 0) ∧
    ((((main example_atoi example_os ["stress_client", "ws://localhost:9002/", "2", "1"]).bind
        (fun st => invoke id st.handlers 0 1 Callback.on_open)).bind
        (fun r => invoke id r.1 0 0 (Callback.on_message ⟨"p"⟩))).bind
        (fun r => invoke id r.1 0 1 (Callback.on_timer false))).map
          (fun r => sent_reports r.2)
      = some [(1, "\x7b\"type\":\"acks\",\"messages\":[\x7b\"p\":1\x7d]\x7d")] := by
  decide

/-- C4, amended. However many connections it establishes, `main` constructs
exactly one handler object, the one its endpoint is given. So whichever of
the existing handler objects the engine calls for a connection, any two
connections `a` and `b` of the run are served by the same object: an
`on_message` for `a` applies its `m[digest]++` to the table of the handler
of `b` and leaves its timer as it is; an `on_open` for `a` leaves the table,
creates the timer of the handler of `b`, bound to `a`, when there is none,
and changes nothing when there is one. -/
theorem connections_share_handler (atoi : String → Int) (os : OS) (argv : List String)
    (uri : String) (num_batches batch_size : Int) (usage : List Event)
    (hargs : arguments atoi argv = (uri, num_batches, batch_size, usage))
    (h1 : INT_MIN < num_batches * batch_size) (h2 : num_batches * batch_size ≤ INT_MAX)
    (md5_hash_hex : String → String) :
    ∃ st, main atoi os argv = some st
      ∧ st.connections = List.range (1 + (num_batches * batch_size - 1).toNat)
      ∧ st.handlers.length = 1
      ∧ st.endpoint.get_handler = 0
      ∧ ∀ (bound : connection_ptr → handler_ptr),
          (∀ c ∈ st.connections, bound c < st.handlers.length) →
          ∀ a ∈ st.connections, ∀ b ∈ st.connections,
            bound a = bound b ∧
            ∀ (handlers : List echo_client_handler), handlers.length = st.handlers.length →
              (∀ msg, ∃ hs1 eff,
                invoke md5_hash_hex handlers (bound a) a (Callback.on_message msg)
                  = some (hs1, eff)
                ∧ table_of hs1 (bound b)
                    = (table_of handlers (bound b)).map
                        (fun m => m.subscript_increment (md5_hash_hex msg.get_payload))
                ∧ timer_of hs1 (bound b) = timer_of handlers (bound b)) ∧
              (∃ hs1 eff,
                invoke md5_hash_hex handlers (bound a) a Callback.on_open = some (hs1, eff)
                ∧ table_of hs1 (bound b) = table_of handlers (bound b)
                ∧ (timer_of handlers (bound b) = some none →
                    timer_of hs1 (bound b)
                      = some (some { expires_ms := 250, pending := [a] }))
                ∧ (timer_of handlers (bound b) ≠ some none → hs1 = handlers)) := by
  obtain ⟨st, hst, _, hh, hp, hc⟩ :=
    main_run atoi os argv uri num_batches batch_size usage hargs h1 h2
  have hlen : st.handlers.length = 1 := by rw [hh]; rfl
  refine ⟨st, hst, hc, hlen, hp, ?_⟩
  intro bound hbound a ha b hb
  have ha0 : bound a = 0 := by
    have hlt := hbound a ha
    rw [hlen] at hlt
    exact Nat.lt_one_iff.1 hlt
  have hb0 : bound b = 0 := by
    have hlt := hbound b hb
    rw [hlen] at hlt
    exact Nat.lt_one_iff.1 hlt
  refine ⟨by rw [ha0, hb0], ?_⟩
  intro handlers hl
  rw [hlen] at hl
  obtain ⟨h, rfl⟩ := List.length_eq_one.1 hl
  rw [ha0, hb0]
  refine ⟨?_, ?_⟩
  · intro msg
    exact ⟨_, _, rfl, rfl, rfl⟩
  · cases hm : h.m_timer with
    | none =>
      refine ⟨[{ h with m_timer := some { expires_ms := 250, pending := [a] } }], [], ?_, rfl,
        fun _ => rfl, ?_⟩
      · simp [invoke, echo_client_handler.call, echo_client_handler.on_open, hm,
          deadline_timer.create, deadline_timer.expires_from_now, deadline_timer.async_wait]
      · intro hne
        exact absurd (by simp [timer_of, hm]) hne
    | some t =>
      refine ⟨[h], [], ?_, rfl, ?_, fun _ => rfl⟩
      · simp [invoke, echo_client_handler.call, echo_client_handler.on_open, hm]
      · intro hn
        simp [timer_of, hm] at hn

theorem connections_share_handler_witness :
    arguments example_atoi ["stress_client", "ws://localhost:9002/", "2", "3"]
      = ("ws://localhost:9002/", 2, 3, []) ∧
    INT_MIN < (2 : Int) * 3 ∧ (2 : Int) * 3 ≤ INT_MAX ∧
    ∃ st, main example_atoi example_os ["stress_client", "ws://localhost:9002/", "2", "3"]
        = some st
      ∧ st.connections = List.range (1 + ((2 : Int) * 3 - 1).toNat)
      ∧ st.handlers.length = 1
      ∧ st.endpoint.get_handler = 0
      ∧ ∀ (bound : connection_ptr → handler_ptr),
          (∀ c ∈ st.connections, bound c < st.handlers.length) →
          ∀ a ∈ st.connections, ∀ b ∈ st.connections,
            bound a = bound b ∧
            ∀ (handlers : List echo_client_handler), handlers.length = st.handlers.length →
              (∀ msg, ∃ hs1 eff,
                invoke id handlers (bound a) a (Callback.on_message msg) = some (hs1, eff)
                ∧ table_of hs1 (bound b)
                    = (table_of handlers (bound b)).map
                        (fun m => m.subscript_increment (id msg.get_payload))
                ∧ timer_of hs1 (bound b) = timer_of handlers (bound b)) ∧
              (∃ hs1 eff,
                invoke id handlers (bound a) a Callback.on_open = some (hs1, eff)
                ∧ table_of hs1 (bound b) = table_of handlers (bound b)
                ∧ (timer_of handlers (bound b) = some none →
                    timer_of hs1 (bound b)
                      = some (some { expires_ms := 250, pending := [a] }))
                ∧ (timer_of handlers (bound b) ≠ some none → hs1 = handlers)) :=
  ⟨by decide, by decide, by decide,
   connections_share_handler example_atoi example_os
     ["stress_client", "ws://localhost:9002/", "2", "3"] "ws://localhost:9002/" 2 3 []
     (by decide) (by decide) (by decide) id⟩

end StressClient
